import Mathlib

/-!
Verification development for the pymongowatch deferred event delivery
engine.  The definitions below are a shallow embedding of the source in
pymongo/watcher/logger.py (WatchMessage, WatchQueue), of the field
construction helpers in pymongo/watcher/bases.py (OperationWatcher) and
of the rate increment computation in pymongo/watcher/filters.py
(RateFilter).  Time is modelled as Nat (seconds since an arbitrary
origin); Python object identity is modelled by an explicit object id
carried by each message; shared in-place mutation of WatchMessage
objects is modelled by an object store inside the queue state.
-/

namespace PymongoWatch

/-- Python values that can live inside a WatchMessage dictionary.  The
source stores arbitrary Python objects; the claims only need None,
integers, booleans and strings (floats are outside the model). -/
inductive PyVal where
  | vNone : PyVal
  | vInt (n : Int) : PyVal
  | vBool (b : Bool) : PyVal
  | vStr (s : String) : PyVal
deriving DecidableEq, Repr

/-- A Python dict with string keys, as an insertion-ordered association
list (Python dicts preserve insertion order). -/
abbrev Dict : Type := List (String × PyVal)

/-- Lookup mirroring Python dict.get(k): the value if present. -/
def dictGet (d : Dict) (k : String) : Option PyVal :=
  (List.find? (fun p => p.1 = k) d).map Prod.snd

/-- Assignment d[k] = v: updates in place keeping the insertion
position when the key exists, otherwise appends (Python dict order). -/
def dictSet (d : Dict) (k : String) (v : PyVal) : Dict :=
  if List.any d (fun p => p.1 = k) then
    List.map (fun p => if p.1 = k then (k, v) else p) d
  else
    d ++ [(k, v)]

/-- A logging.LogRecord as seen by WatchQueue: getattr(item, "watch",
None) either yields the inner WatchMessage or None (for sentinels).
`rid` models the object identity of the record (LogRecord instances
have no value equality, they compare by identity); `watchOid` is the
object id of the message it carries, if any. -/
structure LogRecord where
  rid : Nat
  watchOid : Option Nat
deriving DecidableEq, Repr

/-- The ready_call_back slot of a WatchMessage: either the default
method of the class (pass, a no-op) or the bound
partial(WatchQueue._ready_call_back, item) installed by put_nowait. -/
inductive Callback where
  | nop : Callback
  | enqueueReady (item : LogRecord) : Callback
deriving DecidableEq, Repr

/-- WatchMessage from pymongo/watcher/logger.py: an extended dict with
object-identity hash, a timeout_on attribute (None by default), a
_ready flag and the ready_call_back slot.  `oid` models id(self).
`reay_attr` records the misspelled attribute assigned by WatchQueue.get
(source line 555 writes item.watch.reay_call_back, which creates a new
attribute instead of overwriting ready_call_back); it is never read. -/
structure WatchMessage where
  oid : Nat
  data : Dict
  timeout_on : Option Nat := none
  ready : Bool := false
  callback : Callback := Callback.nop
  reay_attr : Bool := false
deriving DecidableEq, Repr

/-- The Python return value of WatchMessage.set_ready: the method has
no return statement, so it always returns None. -/
inductive PyRet where
  | pyNone : PyRet
deriving DecidableEq, Repr

/-- Result of one WatchMessage.set_ready call: the updated message,
whether self.ready_call_back() was invoked during the call, and the
value returned to the caller. -/
structure SetReadyResult where
  msg : WatchMessage
  callbackFired : Bool
  ret : PyRet
deriving DecidableEq, Repr

/-- WatchMessage.set_ready (logger.py lines 102 to 112): invoke the
callback only when not already ready, then set _ready to True.  The
method never touches timeout_on or the dictionary contents and falls
off the end, returning None. -/
def set_ready (m : WatchMessage) : SetReadyResult :=
  { msg := { m with ready := true },
    callbackFired := !m.ready,
    ret := PyRet.pyNone }

/-- Python truthiness of a WatchMessage used by put_nowait and get
(`if watch:`): a dict is falsy exactly when empty. -/
def watchTruthy : Option WatchMessage → Bool
  | some w => !w.data.isEmpty
  | none => false

/-- WatchMessage.__setitem__ on the inner dict (in-place mutation by a
producer). -/
def WatchMessage.setItem (m : WatchMessage) (k : String) (v : PyVal) :
    WatchMessage :=
  { m with data := dictSet m.data k v }

/-- The state of a WatchQueue (logger.py lines 332 to 384) together
with the store of WatchMessage objects shared between log records.
`queue` is the heapq array of (timeout_on, item) pairs, manipulated
by the embedded heapq algorithms below; a heapq comparison between
entries with equal timestamps falls through to the LogRecords and
raises TypeError, which the embedding surfaces as an error.
`ready_items` is the insertion-ordered dict from records to insertion
time; `garbage_items` the set of watch object ids already returned by
the ready path; `notify_count` counts new_item_condition.notify_all
calls, the observable signal to waiting consumers. -/
structure QState where
  maxsize : Nat := 0
  default_delay_sec : Nat := 0
  force_default_delay : Bool := false
  garbage_collection_limit : Nat := 10000
  msgs : List (Nat × WatchMessage) := []
  queue : List (Nat × LogRecord) := []
  ready_items : List (LogRecord × Nat) := []
  garbage_items : List Nat := []
  notify_count : Nat := 0
deriving DecidableEq, Repr

/-- Dereference a watch object id in the store. -/
def getMsg (s : QState) (oid : Nat) : Option WatchMessage :=
  (List.find? (fun p => p.1 = oid) s.msgs).map Prod.snd

/-- In-place update of the message with the given object id. -/
def setMsg (s : QState) (oid : Nat) (m : WatchMessage) : QState :=
  { s with msgs := List.map (fun p => if p.1 = oid then (oid, m) else p) s.msgs }

/-- Python errors surfaced by the embedded queue operations:
queue.Full from the capacity check, TypeError from a heapq comparison
that reaches the LogRecords (logging.LogRecord defines no ordering, so
comparing two entries with equal timestamps raises), and IndexError
from popping an empty list. -/
inductive PyError where
  | queueFull : PyError
  | typeError : PyError
  | indexError : PyError
deriving DecidableEq, Repr

/-- heap[i] on the heapq array. -/
def listGet : List (Nat × LogRecord) → Nat → Option (Nat × LogRecord)
  | [], _ => none
  | x :: _, 0 => some x
  | _ :: xs, n + 1 => listGet xs n

/-- heap[i] = a on the heapq array (the call sites only write in
range; an out-of-range write leaves the list unchanged). -/
def listSet : List (Nat × LogRecord) → Nat → (Nat × LogRecord) →
    List (Nat × LogRecord)
  | [], _, _ => []
  | _ :: xs, 0, a => a :: xs
  | x :: xs, n + 1, a => x :: listSet xs n a

/-- list.pop() on the heapq array: the last element and the remaining
front, or none when the list is empty. -/
def listPopLast : List (Nat × LogRecord) →
    Option ((Nat × LogRecord) × List (Nat × LogRecord))
  | [] => none
  | [a] => some (a, [])
  | a :: b :: rest =>
      match listPopLast (b :: rest) with
      | some (last, front) => some (last, a :: front)
      | none => none

/-- The comparison a < b on the (timeout_on, LogRecord) tuples that
heapq orders by.  Distinct timestamps decide the tuple comparison;
equal timestamps make Python compare the LogRecords themselves, which
raises TypeError because logging.LogRecord defines no ordering. -/
def tupLt (a b : Nat × LogRecord) : Except PyError Bool :=
  if a.1 < b.1 then Except.ok true
  else if b.1 < a.1 then Except.ok false
  else Except.error PyError.typeError

/-- heapq._siftdown(heap, 0, pos) with newitem = heap[pos]: walk the
parent chain from pos, moving larger parents down, and place newitem
in the final hole; every step compares newitem with a parent and can
raise TypeError on a timestamp tie.  The fuel argument bounds the walk
(parent positions strictly decrease); call sites pass more than pos,
so the fuel never runs out. -/
def siftdownFrom : Nat → List (Nat × LogRecord) → Nat → (Nat × LogRecord) →
    Except PyError (List (Nat × LogRecord))
  | 0, h, pos, newitem => Except.ok (listSet h pos newitem)
  | fuel + 1, h, pos, newitem =>
      if pos = 0 then Except.ok (listSet h pos newitem)
      else
        match listGet h ((pos - 1) / 2) with
        | none => Except.ok (listSet h pos newitem)
        | some parent =>
            match tupLt newitem parent with
            | Except.error e => Except.error e
            | Except.ok true =>
                siftdownFrom fuel (listSet h pos parent) ((pos - 1) / 2) newitem
            | Except.ok false => Except.ok (listSet h pos newitem)

/-- heapq.heappush: append the item, then sift it toward the root. -/
def heappush (h : List (Nat × LogRecord)) (item : Nat × LogRecord) :
    Except PyError (List (Nat × LogRecord)) :=
  siftdownFrom (h.length + 1) (h ++ [item]) h.length item

/-- The descent loop of heapq._siftup: starting from pos, repeatedly
move the smaller child up (comparing the two children can raise
TypeError on a timestamp tie) until a leaf is reached; returns the
array with the children shifted and the final hole position. -/
def siftupLoop : Nat → List (Nat × LogRecord) → Nat →
    Except PyError (List (Nat × LogRecord) × Nat)
  | 0, h, pos => Except.ok (h, pos)
  | fuel + 1, h, pos =>
      if 2 * pos + 1 < h.length then
        let pick : Except PyError Nat :=
          if 2 * pos + 2 < h.length then
            match listGet h (2 * pos + 1), listGet h (2 * pos + 2) with
            | some c, some r =>
                match tupLt c r with
                | Except.error e => Except.error e
                | Except.ok b =>
                    Except.ok (if b then 2 * pos + 1 else 2 * pos + 2)
            | _, _ => Except.ok (2 * pos + 1)
          else Except.ok (2 * pos + 1)
        match pick with
        | Except.error e => Except.error e
        | Except.ok cp =>
            match listGet h cp with
            | some child => siftupLoop fuel (listSet h pos child) cp
            | none => Except.ok (h, pos)
      else Except.ok (h, pos)

/-- heapq._siftup(heap, pos): read newitem = heap[pos], run the
descent loop, place newitem in the final hole, then sift it back
toward the root with _siftdown(heap, pos, hole). -/
def siftup (fuel : Nat) (h : List (Nat × LogRecord)) (pos : Nat) :
    Except PyError (List (Nat × LogRecord)) :=
  match listGet h pos with
  | none => Except.ok h
  | some newitem =>
      match siftupLoop fuel h pos with
      | Except.error e => Except.error e
      | Except.ok (h1, posF) =>
          siftdownFrom (posF + 1) (listSet h1 posF newitem) posF newitem

/-- heapq.heappop: pop the last array element; if the heap is still
nonempty, the root is the return value, the popped last element
replaces the root and is sifted down, which can raise TypeError on a
timestamp tie. -/
def heappop (h : List (Nat × LogRecord)) :
    Except PyError ((Nat × LogRecord) × List (Nat × LogRecord)) :=
  match listPopLast h with
  | none => Except.error PyError.indexError
  | some (lastelt, front) =>
      match front with
      | [] => Except.ok (lastelt, [])
      | first :: _ =>
          match siftup (front.length + 1) (listSet front 0 lastelt) 0 with
          | Except.error e => Except.error e
          | Except.ok h2 => Except.ok (first, h2)

/-- Membership update for the ready_items dict: a present key keeps its
position and gets the new timestamp, a new key is appended.  Records
are keyed by object identity (LogRecord has no value equality). -/
def readySet (l : List (LogRecord × Nat)) (it : LogRecord) (ts : Nat) :
    List (LogRecord × Nat) :=
  if List.any l (fun p => p.1.rid = it.rid) then
    List.map (fun p => if p.1.rid = it.rid then (p.1, ts) else p) l
  else
    l ++ [(it, ts)]

/-- ready_items.pop(item, None): remove the entry keyed by the record,
if present. -/
def readyRemove (l : List (LogRecord × Nat)) (it : LogRecord) :
    List (LogRecord × Nat) :=
  List.filter (fun p => p.1.rid ≠ it.rid) l

/-- set.add on garbage_items (a set of watch messages, identified here
by object id since WatchMessage hashes by id). -/
def garbageAdd (g : List Nat) (oid : Nat) : List Nat :=
  if oid ∈ g then g else g ++ [oid]

/-- WatchQueue._ready_call_back (logger.py lines 598 to 608): insert
the record into ready_items stamped with the current time and notify
all waiters. -/
def ready_call_back_q (s : QState) (item : LogRecord) (now : Nat) : QState :=
  { s with ready_items := readySet s.ready_items item now,
           notify_count := s.notify_count + 1 }

/-- Run a ready_call_back slot against the queue state. -/
def fireCallback (s : QState) (cb : Callback) (now : Nat) : QState :=
  match cb with
  | Callback.nop => s
  | Callback.enqueueReady item => ready_call_back_q s item now

/-- A producer calling set_ready on the message with object id `oid`
at time `now`: the callback (if the message was not yet ready) runs
against the queue state, then the message is marked ready in place. -/
def watch_set_ready (s : QState) (oid : Nat) (now : Nat) : QState :=
  match getMsg s oid with
  | none => s
  | some w =>
      let r := set_ready w
      let s1 := if r.callbackFired then fireCallback s w.callback now else s
      setMsg s1 oid r.msg

/-- A producer reassigning watch.timeout_on (a plain attribute of the
old WatchMessage API). -/
def watch_set_timeout_on (s : QState) (oid : Nat) (t : Nat) : QState :=
  match getMsg s oid with
  | none => s
  | some w => setMsg s oid { w with timeout_on := some t }

/-- WatchQueue.put_nowait (logger.py lines 386 to 423).  Raising is
modelled as Except.error: queue.Full from the capacity check and
TypeError out of heapq.heappush when the pushed timestamp ties one on
the sift path.  The full check compares the heap length (not a count
of distinct identities) against maxsize.  The timeout falls back to
now + default_delay_sec when the watch is absent, falsy, or its
timeout_on is falsy (None or 0).  A non-ready watch gets its
ready_call_back rebound to this record and the record is pushed on the
heap, with the notify happening only after a successful push; an
already-ready watch goes straight through _ready_call_back. -/
def put_nowait (s : QState) (item : LogRecord) (now : Nat) :
    Except PyError QState :=
  if s.maxsize ≤ s.queue.length ∧ 0 < s.maxsize then
    Except.error PyError.queueFull
  else
    let watchObj := Option.bind item.watchOid (getMsg s)
    let defaultT := now + s.default_delay_sec
    let timeoutOn :=
      if !s.force_default_delay ∧ watchTruthy watchObj then
        match watchObj with
        | some w =>
            match w.timeout_on with
            | some t => if t = 0 then defaultT else t
            | none => defaultT
        | none => defaultT
      else defaultT
    let ready : Option Bool :=
      if watchTruthy watchObj then Option.map WatchMessage.ready watchObj
      else none
    if s.force_default_delay ∨ ready ≠ some true then
      let s1 :=
        match ready, item.watchOid, watchObj with
        | some _, some oid, some w =>
            setMsg s oid { w with callback := Callback.enqueueReady item }
        | _, _, _ => s
      match heappush s1.queue (timeoutOn, item) with
      | Except.error e => Except.error e
      | Except.ok q2 =>
          Except.ok { s1 with queue := q2,
                              notify_count := s1.notify_count + 1 }
    else
      Except.ok (ready_call_back_q s item now)

/-- The inner skip loop of WatchQueue.get (logger.py lines 452 to 525):
while the earliest heap entry (the peeked queue[0]) has timed out and
its watch is in garbage_items, pop it through heapq.heappop (single
threaded, the first pop returns exactly the peeked entry, so the
restore list of the source stays empty) and remove its watch from the
garbage set; stop at the first entry that is not yet due, has no
garbage watch, or when the heap empties.  The pops sift the heap and
can raise TypeError on a timestamp tie.  The fuel bounds the loop (a
pop shrinks the heap); call sites pass more than the heap length. -/
def gcSkip (now : Nat) : Nat → List (Nat × LogRecord) → List Nat →
    Except PyError (List (Nat × LogRecord) × List Nat)
  | _, [], g => Except.ok ([], g)
  | 0, h, g => Except.ok (h, g)
  | fuel + 1, (ts, it) :: rest, g =>
      if now ≥ ts then
        match it.watchOid with
        | some oid =>
            if oid ∈ g then
              match heappop ((ts, it) :: rest) with
              | Except.error e => Except.error e
              | Except.ok (_, h2) => gcSkip now fuel h2 (List.erase g oid)
            else Except.ok ((ts, it) :: rest, g)
        | none => Except.ok ((ts, it) :: rest, g)
      else Except.ok ((ts, it) :: rest, g)

/-- The drain loop of WatchQueue.garbage_collect (logger.py lines 586
to 593): heappop every entry, drop those whose watch is in the garbage
set (removing the watch from the set as the source does, so a second
entry with the same watch is kept), and collect the rest in pop order;
the pops can raise TypeError on a timestamp tie. -/
def gcDrain : Nat → List (Nat × LogRecord) → List Nat →
    List (Nat × LogRecord) →
    Except PyError (List (Nat × LogRecord) × List Nat)
  | _, [], g, acc => Except.ok (acc, g)
  | 0, h, g, acc => Except.ok (acc ++ h, g)
  | fuel + 1, h, g, acc =>
      match heappop h with
      | Except.error e => Except.error e
      | Except.ok (it, h2) =>
          match it.2.watchOid with
          | some oid =>
              if oid ∈ g then gcDrain fuel h2 (List.erase g oid) acc
              else gcDrain fuel h2 g (acc ++ [it])
          | none => gcDrain fuel h2 g (acc ++ [it])

/-- The restore loop of WatchQueue.garbage_collect (lines 595 to 596):
heappush every useful entry back into the emptied heap; the pushes can
raise TypeError on a timestamp tie. -/
def gcRestore : List (Nat × LogRecord) → List (Nat × LogRecord) →
    Except PyError (List (Nat × LogRecord))
  | [], h => Except.ok h
  | it :: rest, h =>
      match heappush h it with
      | Except.error e => Except.error e
      | Except.ok h2 => gcRestore rest h2

/-- WatchQueue.garbage_collect applied to the state. -/
def garbage_collect (s : QState) : Except PyError QState :=
  match gcDrain (s.queue.length + 1) s.queue s.garbage_items [] with
  | Except.error e => Except.error e
  | Except.ok (useful, g2) =>
      match gcRestore useful [] with
      | Except.error e => Except.error e
      | Except.ok q2 => Except.ok { s with queue := q2, garbage_items := g2 }

/-- Result of a successful WatchQueue.get: the returned record and the
state after the call. -/
structure GetResult where
  item : LogRecord
  state : QState
deriving DecidableEq, Repr

/-- One non-blocking pass of WatchQueue.get (logger.py lines 425 to
577) at a fixed time `now`: run the garbage skip loop, take the heap
minimum as candidate when due, take the first ready_items entry as the
other candidate, and return ok none when both are absent (the source
would block on the condition variable there).  Then run the occasional
garbage collection, and pick the heap candidate when its timeout is
earlier than the ready candidate insertion time (heappopping it,
writing the misspelled reay_call_back attribute on its truthy watch,
and dropping its own ready_items entry), otherwise pick the ready
candidate (adding its truthy watch to garbage_items and removing it
from ready_items).  Heap pops during the skip loop, the garbage
collection or the queue-path return can raise TypeError on a
timestamp tie, which propagates out of get. -/
def get_try (s : QState) (now : Nat) : Except PyError (Option GetResult) :=
  match gcSkip now (s.queue.length + 1) s.queue s.garbage_items with
  | Except.error e => Except.error e
  | Except.ok (q1, g1) =>
    let s1 := { s with queue := q1, garbage_items := g1 }
    let queueCand : Option (Nat × LogRecord) :=
      match q1 with
      | (ts, it) :: _ => if now ≥ ts then some (ts, it) else none
      | [] => none
    let readyCand : Option (LogRecord × Nat) := s1.ready_items.head?
    if queueCand = none ∧ readyCand = none then
      Except.ok none
    else
      match (if s1.garbage_collection_limit < s1.garbage_items.length then
               garbage_collect s1
             else Except.ok s1) with
      | Except.error e => Except.error e
      | Except.ok s2 =>
        let takeQueue :=
          match queueCand, readyCand with
          | some _, none => true
          | some (qts, _), some (_, rts) => qts < rts
          | none, _ => false
        if takeQueue then
          match heappop s2.queue with
          | Except.error e => Except.error e
          | Except.ok (popped, q2) =>
              let qit := popped.2
              let s3 := { s2 with queue := q2 }
              let s4 :=
                match Option.bind qit.watchOid (getMsg s3) with
                | some w =>
                    if watchTruthy (some w) then
                      match qit.watchOid with
                      | some oid => setMsg s3 oid { w with reay_attr := true }
                      | none => s3
                    else s3
                | none => s3
              Except.ok (some { item := qit,
                                state := { s4 with
                                  ready_items := readyRemove s4.ready_items qit } })
        else
          match readyCand with
          | some (rit, _) =>
              let s3 :=
                if watchTruthy (Option.bind rit.watchOid (getMsg s2)) then
                  match rit.watchOid with
                  | some oid =>
                      { s2 with garbage_items := garbageAdd s2.garbage_items oid }
                  | none => s2
                else s2
              Except.ok (some { item := rit,
                                state := { s3 with
                                  ready_items := readyRemove s3.ready_items rit } })
          | none => Except.ok none

/-! ### Concrete scenarios used by the claims about WatchQueue -/

/-- A producer-side message with one field and a deadline, as built by
the watchers before logging. -/
def mkWatch (oid T : Nat) (tag : String) : WatchMessage :=
  { oid := oid, data := [("Operation", PyVal.vStr tag)], timeout_on := some T }

/-- Scenario for the exactly-once claim: message 1 (deadline 10) is
enqueued as record 1, its deadline is rescheduled to 5 by the producer,
it is enqueued again as record 2, and get is called at times 20 and 21.
Returns the two records handed out. -/
def c1run : Option (LogRecord × LogRecord) :=
  match put_nowait { msgs := [(1, mkWatch 1 10 "find")] }
      { rid := 1, watchOid := some 1 } 0 with
  | Except.error _ => none
  | Except.ok s1 =>
    let s2 := watch_set_timeout_on s1 1 5
    match put_nowait s2 { rid := 2, watchOid := some 1 } 0 with
    | Except.error _ => none
    | Except.ok s3 =>
      match get_try s3 20 with
      | Except.ok (some g1) =>
          match get_try g1.state 21 with
          | Except.ok (some g2) => some (g1.item, g2.item)
          | _ => none
      | _ => none

/-- Scenario for the stale-enqueue claim, stopping after each of the
two put_nowait calls: message 1 (deadline 10) enqueued as record 1,
rescheduled to 7, enqueued again as record 2 (the same message, hence
certainly not a newer version).  Returns the pair (heap length, notify
count) after the first put and after the second. -/
def c2run : Option ((Nat × Nat) × (Nat × Nat)) :=
  match put_nowait { msgs := [(1, mkWatch 1 10 "find")] }
      { rid := 1, watchOid := some 1 } 0 with
  | Except.error _ => none
  | Except.ok s1 =>
    let s2 := watch_set_timeout_on s1 1 7
    match put_nowait s2 { rid := 2, watchOid := some 1 } 0 with
    | Except.error _ => none
    | Except.ok s3 =>
        some ((s1.queue.length, s1.notify_count),
              (s3.queue.length, s3.notify_count))

/-- Scenario for the capacity claim: a queue with maxsize 1; message 1
is enqueued as record 1, rescheduled, and enqueued again as record 2
(an in-place replacement of the only live identity). -/
def c3run : Except PyError QState :=
  match put_nowait { maxsize := 1, msgs := [(1, mkWatch 1 10 "find")] }
      { rid := 1, watchOid := some 1 } 0 with
  | Except.error e => Except.error e
  | Except.ok s1 =>
    let s2 := watch_set_timeout_on s1 1 5
    put_nowait s2 { rid := 2, watchOid := some 1 } 0

/-- Scenario for the immediate-delivery claim: message `oid` with
deadline T is enqueued at t0, finalized by the producer at t1,
re-enqueued at t2, and get runs at t3.  Returns the delivered record,
if any. -/
def c6run (oid T t0 t1 t2 t3 : Nat) : Option LogRecord :=
  match put_nowait { msgs := [(oid, mkWatch oid T "find")] }
      { rid := 1, watchOid := some oid } t0 with
  | Except.error _ => none
  | Except.ok s1 =>
    let s2 := watch_set_ready s1 oid t1
    match put_nowait s2 { rid := 2, watchOid := some oid } t2 with
    | Except.error _ => none
    | Except.ok s3 =>
      match get_try s3 t3 with
      | Except.ok (some g) => some g.item
      | _ => none

/-- Scenario refuting the general earliest-deadline clause: message A
(id 1, deadline 100) is enqueued and finalized at time 2; message B
(id 2, deadline 3) is enqueued and left alone; get runs at time 10,
when B has timed out and A has not. -/
def c7run : Option LogRecord :=
  match put_nowait { msgs := [(1, mkWatch 1 100 "a"), (2, mkWatch 2 3 "b")] }
      { rid := 1, watchOid := some 1 } 0 with
  | Except.error _ => none
  | Except.ok s1 =>
    let s2 := watch_set_ready s1 1 2
    match put_nowait s2 { rid := 2, watchOid := some 2 } 0 with
    | Except.error _ => none
    | Except.ok s3 =>
      match get_try s3 10 with
      | Except.ok (some g) => some g.item
      | _ => none

/-- Scenario for the deadline-order claim: two distinct non-finalized
messages A (id 1, deadline dA) and B (id 2, deadline dB) are enqueued,
then get runs twice at time `nowg`.  Returns both delivered records. -/
def c7abRun (dA dB nowg : Nat) : Option (LogRecord × LogRecord) :=
  match put_nowait { msgs := [(1, mkWatch 1 dA "a"), (2, mkWatch 2 dB "b")] }
      { rid := 1, watchOid := some 1 } 0 with
  | Except.error _ => none
  | Except.ok s1 =>
    match put_nowait s1 { rid := 2, watchOid := some 2 } 0 with
    | Except.error _ => none
    | Except.ok s2 =>
      match get_try s2 nowg with
      | Except.ok (some g1) =>
          match get_try g1.state nowg with
          | Except.ok (some g2) => some (g1.item, g2.item)
          | _ => none
      | _ => none

/-- A concrete non-final message for the finalize claims. -/
def ex4 : WatchMessage := mkWatch 4 50 "find"

/-- A concrete non-final message whose deadline 100 lies in the future
at the moment (time 5) it is finalized. -/
def ex5 : WatchMessage := mkWatch 5 100 "find"

/-! ### OperationWatcher field construction (pymongo/watcher/bases.py) -/

/-- The `to` slot of an OperationField: Unset, None, or a string. -/
inductive FieldTo where
  | unset : FieldTo
  | pynone : FieldTo
  | name (s : String) : FieldTo
deriving DecidableEq, Repr

/-- OperationField from bases.py: a field name specification (the
source attribute named to, spelled toKey here because to is reserved),
an optional cast function (which may raise, modelled by Except), and an
optional overriding value (none models Unset). -/
structure OperationField where
  toKey : FieldTo := FieldTo.unset
  cast : Option (PyVal → Except String PyVal) := none
  value : Option PyVal := none

/-- The class default watch_operation_result = OperationField(to="_result"). -/
def watch_operation_result : OperationField := { toKey := FieldTo.name "_result" }

/-- The class default watch_operation_undefined_arguments =
OperationField(to=""). -/
def watch_operation_undefined_arguments : OperationField :=
  { toKey := FieldTo.name "" }

/-- The `with contextlib.suppress(Exception): v = cast(v)` pattern of
_before_operation and _after_operation: apply the cast if defined; on
an exception the value keeps its pre-transform state. -/
def suppressCast (c : Option (PyVal → Except String PyVal)) (v : PyVal) :
    PyVal :=
  match c with
  | none => v
  | some f =>
      match f v with
      | Except.ok w => w
      | Except.error _ => v

/-- `field_name = arg_name if spec.to is Unset else spec.to` followed
by the truthiness test `if field_name:` — the key under which the value
is stored, or none when the resolved name is falsy (None or ""). -/
def resolvedName (argName : String) (t : FieldTo) : Option String :=
  match t with
  | FieldTo.unset => if argName = "" then none else some argName
  | FieldTo.pynone => none
  | FieldTo.name s => if s = "" then none else some s

/-- The defined-arguments loop of OperationWatcher._before_operation
(bases.py lines 312 to 332): skip the argument matching the result
key, take the overriding value or the call argument (None when
absent), apply the cast under suppress, and store under the resolved
truthy name. -/
def processDefined (message : Dict)
    (defined : List (String × OperationField)) (resultTo : FieldTo)
    (args : Dict) : Dict :=
  List.foldl
    (fun msg p =>
      if (match resultTo with
          | FieldTo.name s => decide (p.1 = s)
          | _ => false) then msg
      else
        let base :=
          match p.2.value with
          | none => (dictGet args p.1).getD PyVal.vNone
          | some v => v
        let v := suppressCast p.2.cast base
        match resolvedName p.1 p.2.toKey with
        | some n => dictSet msg n v
        | none => msg)
    message defined

/-- The undefined-arguments loop of OperationWatcher._before_operation
(bases.py lines 334 to 349): when the undefined-arguments field is not
None, every call argument that has no definition is cast under
suppress and stored under the resolved truthy name. -/
def processUndefined (message : Dict)
    (defined : List (String × OperationField)) (uaf : OperationField)
    (args : Dict) : Dict :=
  match uaf.toKey with
  | FieldTo.pynone => message
  | _ =>
      List.foldl
        (fun msg p =>
          if List.any defined (fun q => q.1 = p.1) then msg
          else
            let v := suppressCast uaf.cast p.2
            match resolvedName p.1 uaf.toKey with
            | some n => dictSet msg n v
            | none => msg)
        message args

/-- OperationWatcher._before_operation (bases.py lines 289 to 351),
restricted to its effect on the message dictionary (the trailing log
call hands the message to the emitter and does not modify it). -/
def before_operation (message : Dict)
    (defined : List (String × OperationField)) (result_field : OperationField)
    (uaf : OperationField) (args : Dict) : Dict :=
  processUndefined (processDefined message defined result_field.toKey args)
    defined uaf args

/-- OperationWatcher._after_operation (bases.py lines 353 to 401),
restricted to the message fields it writes: resolve the result key
(defaulting Unset to "(result)"), apply the result cast under
suppress, and when the result key is redefined among the defined
arguments of the operation, rerun name resolution and apply the
redefined cast to the original result under suppress - a raising
redefined cast leaves result_value at the value the earlier global
cast produced (bases.py lines 396 to 398); finally store the value
under the final truthy name.  The subsequent finalize and log calls
(lines 403 to 405) do not touch the fields. -/
def after_operation_fields (message : Dict)
    (defined : List (String × OperationField)) (result_field : OperationField)
    (result : PyVal) : Dict :=
  let rf1 :=
    if result_field.toKey = FieldTo.unset then
      { result_field with toKey := FieldTo.name "(result)" }
    else result_field
  let rv1 := suppressCast rf1.cast result
  let redef : Option (String × OperationField) :=
    match rf1.toKey with
    | FieldTo.name s =>
        if s ≠ "" then
          match List.find? (fun q => q.1 = s) defined with
          | some q => some q
          | none => none
        else none
    | _ => none
  match redef with
  | some q =>
      let spec :=
        if q.2.toKey = FieldTo.unset then { q.2 with toKey := FieldTo.name q.1 }
        else q.2
      let rv2 :=
        match spec.cast with
        | some f =>
            match f result with
            | Except.ok w => w
            | Except.error _ => rv1
        | none => rv1
      match spec.toKey with
      | FieldTo.name s => if s = "" then message else dictSet message s rv2
      | _ => message
  | none =>
      match rf1.toKey with
      | FieldTo.name s => if s = "" then message else dictSet message s rv1
      | _ => message

/-! ### RateFilter increments (pymongo/watcher/filters.py) -/

/-- isinstance(x, numbers.Number) on the modelled values: integers and
booleans are Numbers, strings and None are not. -/
def isNumber : PyVal → Bool
  | PyVal.vInt _ => true
  | PyVal.vBool _ => true
  | _ => false

/-- int(x) on the modelled numeric values (always succeeds here; the
try/except fallback of the source is only reachable for numeric kinds
outside this model, such as float nan). -/
def pyInt : PyVal → Int
  | PyVal.vInt n => n
  | PyVal.vBool b => if b then 1 else 0
  | _ => 0

/-- The per-attribute body of RateFilter.__get_increments (filters.py
lines 492 to 506): watch.get(attr, 0); a Number contributes its int()
value, anything else contributes 1. -/
def increment_of (watch : Dict) (attr : String) : Int :=
  let inc := (dictGet watch attr).getD (PyVal.vInt 0)
  if isNumber inc then pyInt inc else 1

/-- RateFilter.__get_increments: one increment per tracked attribute. -/
def get_increments (attrs : List String) (watch : Dict) :
    List (String × Int) :=
  List.map (fun a => (a, increment_of watch a)) attrs

/-- Lookup in the increments result dictionary. -/
def incLookup (l : List (String × Int)) (a : String) : Option Int :=
  (List.find? (fun p => p.1 = a) l).map Prod.snd

/-! ### Python set semantics for identity-hashed messages (claim on
WatchMessage.__hash__) -/

/-- WatchMessage.__hash__ (logger.py lines 239 to 240): the object id. -/
def msg_hash (m : WatchMessage) : Nat := m.oid

/-- dict.__eq__, inherited by WatchMessage: content equality of the
key/value pairs. -/
def dict_eq (a b : WatchMessage) : Bool := a.data = b.data

/-- An entry of a Python set of WatchMessages: the element together
with the hash bucket recorded when it was inserted (Python never
rehashes an element in place). -/
structure PySetEntry where
  bucket : Nat
  elem : WatchMessage
deriving DecidableEq, Repr

/-- set.add: a new element goes into the bucket of its current hash;
an element already present (same bucket, equal contents) is not
duplicated. -/
def pyset_add (s : List PySetEntry) (m : WatchMessage) : List PySetEntry :=
  if List.any s (fun e => e.bucket = msg_hash m ∧ dict_eq e.elem m) then s
  else s ++ [{ bucket := msg_hash m, elem := m }]

/-- `m in s`: look in the bucket of hash(m) for an element equal to m. -/
def pyset_contains (s : List PySetEntry) (m : WatchMessage) : Bool :=
  List.any s (fun e => e.bucket = msg_hash m ∧ dict_eq e.elem m)

/-- In-place mutation of the set element with object id `oid`: the
object changes but stays in its recorded bucket, exactly as a Python
set behaves when a stored element is mutated. -/
def mutate_in_set (s : List PySetEntry) (oid : Nat)
    (f : WatchMessage → WatchMessage) : List PySetEntry :=
  List.map (fun e => if e.elem.oid = oid then { e with elem := f e.elem } else e) s

end PymongoWatch

namespace PymongoWatch

/-! ### General lemmas about the embedded operations -/

/-- Array assignment preserves the length. -/
theorem listSet_length (l : List (Nat × LogRecord)) (i : Nat)
    (a : Nat × LogRecord) : (listSet l i a).length = l.length := by
  induction l generalizing i with
  | nil => rfl
  | cons x xs ih =>
      cases i with
      | zero => rfl
      | succ n => simp [listSet, ih]

/-- Array assignment leaves other positions unchanged. -/
theorem listGet_listSet_ne (l : List (Nat × LogRecord)) (i j : Nat)
    (a : Nat × LogRecord) (h : j ≠ i) :
    listGet (listSet l i a) j = listGet l j := by
  induction l generalizing i j with
  | nil => rfl
  | cons x xs ih =>
      cases i with
      | zero =>
          cases j with
          | zero => exact absurd rfl h
          | succ m => rfl
      | succ n =>
          cases j with
          | zero => rfl
          | succ m =>
              show listGet (listSet xs n a) m = listGet xs m
              exact ih n m (fun he => h (by rw [he]))

/-- In-range positions hold an element. -/
theorem listGet_lt_length (l : List (Nat × LogRecord)) (i : Nat)
    (h : i < l.length) : ∃ e, listGet l i = some e := by
  induction l generalizing i with
  | nil => simp at h
  | cons x xs ih =>
      cases i with
      | zero => exact ⟨x, rfl⟩
      | succ n => exact ih n (by simpa using h)

/-- Reading inside the left part of an appended array. -/
theorem listGet_append_lt (l1 l2 : List (Nat × LogRecord)) (i : Nat)
    (h : i < l1.length) : listGet (l1 ++ l2) i = listGet l1 i := by
  induction l1 generalizing i with
  | nil => simp at h
  | cons x xs ih =>
      cases i with
      | zero => rfl
      | succ n => exact ih n (by simpa using h)

/-- An element read from the array is one of its members. -/
theorem listGet_mem (l : List (Nat × LogRecord)) (i : Nat)
    (e : Nat × LogRecord) (h : listGet l i = some e) : e ∈ l := by
  induction l generalizing i with
  | nil => cases h
  | cons x xs ih =>
      cases i with
      | zero =>
          have hx : x = e := by
            have h2 := h
            simp [listGet] at h2
            exact h2
          rw [← hx]
          exact List.mem_cons_self x xs
      | succ n => exact List.mem_cons_of_mem x (ih n h)

/-- Any error out of the tuple comparison is the TypeError from
comparing two LogRecords. -/
theorem tupLt_error (a b : Nat × LogRecord) (e : PyError)
    (h : tupLt a b = Except.error e) : e = PyError.typeError := by
  unfold tupLt at h
  split at h
  · exact Except.noConfusion h
  · split at h
    · exact Except.noConfusion h
    · injection h with h2
      exact h2.symm

/-- Any error out of the sift toward the root is the TypeError. -/
theorem siftdownFrom_error : ∀ (fuel : Nat) (h : List (Nat × LogRecord))
    (pos : Nat) (newitem : Nat × LogRecord) (e : PyError),
    siftdownFrom fuel h pos newitem = Except.error e →
      e = PyError.typeError := by
  intro fuel
  induction fuel with
  | zero =>
      intro h pos n e he
      simp [siftdownFrom] at he
  | succ f ih =>
      intro h pos n e he
      unfold siftdownFrom at he
      split at he
      · exact Except.noConfusion he
      · split at he
        · exact Except.noConfusion he
        · split at he
          next htup =>
            injection he with h2
            rw [← h2]
            exact tupLt_error _ _ _ htup
          next htup => exact ih _ _ _ _ he
          next htup => exact Except.noConfusion he

/-- A push whose timestamp ties no entry already in the heap never
compares two equal timestamps, hence never raises. -/
theorem siftdownFrom_ok : ∀ (fuel : Nat) (h : List (Nat × LogRecord))
    (pos : Nat) (newitem : Nat × LogRecord),
    pos < fuel → pos < h.length →
    (∀ i e, i < pos → listGet h i = some e → e.1 ≠ newitem.1) →
    ∃ h2, siftdownFrom fuel h pos newitem = Except.ok h2 ∧
      h2.length = h.length := by
  intro fuel
  induction fuel with
  | zero =>
      intro h pos n hf _ _
      omega
  | succ f ih =>
      intro h pos n hf hlen hinv
      unfold siftdownFrom
      by_cases hp : pos = 0
      · rw [if_pos hp]
        exact ⟨_, rfl, listSet_length h pos n⟩
      · rw [if_neg hp]
        have hpp : (pos - 1) / 2 < pos := by omega
        obtain ⟨parent, hpar⟩ := listGet_lt_length h ((pos - 1) / 2)
          (lt_trans hpp hlen)
        rw [hpar]
        dsimp only
        have hne : parent.1 ≠ n.1 := hinv _ parent hpp hpar
        by_cases hlt : n.1 < parent.1
        · have htup : tupLt n parent = Except.ok true := by
            unfold tupLt
            rw [if_pos hlt]
          rw [htup]
          dsimp only
          obtain ⟨h2, he2, hl2⟩ := ih (listSet h pos parent) ((pos - 1) / 2) n
            (by omega)
            (by rw [listSet_length]; exact lt_trans hpp hlen)
            (fun i e hi hg => hinv i e (lt_trans hi hpp)
              (by rwa [listGet_listSet_ne h pos i parent
                (Nat.ne_of_lt (lt_trans hi hpp))] at hg))
          exact ⟨h2, he2, by rw [hl2, listSet_length]⟩
        · have hgt : parent.1 < n.1 := by omega
          have htup : tupLt n parent = Except.ok false := by
            unfold tupLt
            rw [if_neg hlt, if_pos hgt]
          rw [htup]
          dsimp only
          exact ⟨_, rfl, listSet_length h pos n⟩

/-- heappush of an item whose timestamp differs from every stored one
succeeds and grows the heap by exactly one entry. -/
theorem heappush_ok (h : List (Nat × LogRecord)) (item : Nat × LogRecord)
    (hnt : ∀ e ∈ h, e.1 ≠ item.1) :
    ∃ h2, heappush h item = Except.ok h2 ∧ h2.length = h.length + 1 := by
  unfold heappush
  obtain ⟨h2, he, hl⟩ := siftdownFrom_ok (h.length + 1) (h ++ [item]) h.length
    item (by omega) (by simp)
    (fun i e hi hg =>
      hnt e (listGet_mem h i e (by rwa [listGet_append_lt h [item] i hi] at hg)))
  exact ⟨h2, he, by rw [hl]; simp⟩

/-- Any error out of heappush is the TypeError. -/
theorem heappush_error (h : List (Nat × LogRecord)) (item : Nat × LogRecord)
    (e : PyError) (he : heappush h item = Except.error e) :
    e = PyError.typeError :=
  siftdownFrom_error _ _ _ _ _ he

/-- Writing a key and reading it back yields the written value. -/
theorem find?_append_none {α : Type} (p : α → Bool) (l1 l2 : List α)
    (h : List.find? p l1 = none) :
    List.find? p (l1 ++ l2) = List.find? p l2 := by
  induction l1 with
  | nil => rfl
  | cons a l ih =>
      rw [List.cons_append]
      cases hp : p a with
      | true => simp [List.find?, hp] at h
      | false =>
          rw [List.find?_cons_of_neg _ (by simp [hp])]
          rw [List.find?_cons_of_neg _ (by simp [hp])] at h
          exact ih h

/-- The in-place branch of dictSet keeps the updated pair findable. -/
theorem find?_mapped (d : Dict) (k : String) (v : PyVal)
    (h : List.any d (fun p => p.1 = k) = true) :
    List.find? (fun p => p.1 = k)
      (List.map (fun p => if p.1 = k then (k, v) else p) d) = some (k, v) := by
  induction d with
  | nil => simp at h
  | cons p rest ih =>
      by_cases hp : p.1 = k
      · simp [hp, List.find?]
      · have h' : List.any rest (fun p => p.1 = k) = true := by
          simpa [hp] using h
        simp only [List.map_cons, if_neg hp]
        rw [List.find?_cons_of_neg _ (by simp [hp])]
        exact ih h'

/-- dict assignment followed by lookup of the same key. -/
theorem dictGet_dictSet (d : Dict) (k : String) (v : PyVal) :
    dictGet (dictSet d k v) k = some v := by
  unfold dictGet dictSet
  by_cases h : List.any d (fun p => p.1 = k)
  · rw [if_pos h, find?_mapped d k v h]
    rfl
  · rw [if_neg h]
    have hn : List.find? (fun p => p.1 = k) d = none := by
      rw [List.find?_eq_none]
      intro x hx
      simp only [decide_eq_true_eq]
      intro hxk
      exact h (List.any_eq_true.mpr ⟨x, hx, by simp [hxk]⟩)
    rw [find?_append_none _ _ _ hn]
    simp [List.find?]

/-- With the class default undefined-arguments field (to set to the
empty string, a falsy name), the undefined-arguments loop leaves the
message untouched. -/
theorem processUndefined_default (message : Dict)
    (defined : List (String × OperationField)) (args : Dict) :
    processUndefined message defined watch_operation_undefined_arguments args
      = message := by
  unfold processUndefined watch_operation_undefined_arguments
  dsimp only
  induction args generalizing message with
  | nil => rfl
  | cons p rest ih =>
      rw [List.foldl_cons]
      have hstep :
          (if List.any defined (fun q => q.1 = p.1) then message
           else
             match resolvedName p.1 (FieldTo.name "") with
             | some n => dictSet message n (suppressCast none p.2)
             | none => message) = message := by
        split
        · rfl
        · rfl
      rw [hstep]
      exact ih message

/-- Lookup of a tracked attribute in the increments dictionary built
by get_increments. -/
theorem incLookup_get_increments (attrs : List String) (watch : Dict)
    (a : String) (ha : a ∈ attrs) :
    incLookup (get_increments attrs watch) a = some (increment_of watch a) := by
  induction attrs with
  | nil => cases ha
  | cons x xs ih =>
      by_cases hx : x = a
      · subst hx
        simp [incLookup, get_increments, List.find?]
      · have ha' : a ∈ xs := by
          cases List.mem_cons.mp ha with
          | inl h => exact absurd h.symm hx
          | inr h => exact h
        unfold incLookup get_increments at ih ⊢
        simp only [List.map_cons]
        rw [List.find?_cons_of_neg _ (by simp [hx])]
        exact ih ha'

/-! ### Claim theorems -/

/-- Claim C1 (code bug): exactly-once delivery fails on the code.  In
the c1run scenario the same WatchMessage (object id 1) is enqueued
twice (once with deadline 10, once after its deadline is rescheduled
to 5), both deadlines elapse, and two successive get calls return one
record each carrying that same identity: the timed-out delivery path
of WatchQueue.get never records the watch in garbage_items (and the
line meant to disable its ready_call_back assigns a misspelled
attribute), so the second heap entry is delivered as well.  The claim
says exactly one record per identity is ever returned. -/
theorem c1_exactly_once_violated :
    c1run = some ({ rid := 2, watchOid := some 1 },
                  { rid := 1, watchOid := some 1 }) ∧
    Option.map (fun p => (p.1.watchOid, p.2.watchOid)) c1run
      = some (some 1, some 1) ∧
    Option.map (fun p => decide (p.1.rid = p.2.rid)) c1run = some false := by
  decide

/-- Claim C2 counterexample: a stale enqueue is not a silent no-op.
Enqueuing the very same WatchMessage a second time (certainly not a
newer version) grows the heap from one entry to two and signals the
condition variable a second time, so the queue state is changed and
waiters are woken, contradicting the claim. -/
theorem c2_stale_enqueue_not_noop : c2run = some ((1, 1), (2, 2)) := by
  decide

/-- Claim C2 as amended: put_nowait performs no version comparison at
all.  Any enqueue of a record whose non-empty watch is not ready
(stale or not), with a deadline that ties no entry already in the heap
(a tie would make the underlying heapq push compare the LogRecords and
raise TypeError instead), pushes one more heap entry and signals the
waiters once more; staleness is never detected at enqueue time, and
the older version remains stored. -/
theorem c2_stale_enqueue_amended (s : QState) (item : LogRecord)
    (now oid t : Nat) (w : WatchMessage)
    (hfull : ¬ (s.maxsize ≤ s.queue.length ∧ 0 < s.maxsize))
    (hforce : s.force_default_delay = false)
    (hoid : item.watchOid = some oid) (hw : getMsg s oid = some w)
    (hready : w.ready = false) (hdata : w.data ≠ [])
    (ht : w.timeout_on = some t) (ht0 : t ≠ 0)
    (hnotie : ∀ e ∈ s.queue, e.1 ≠ t) :
    ∃ s2, put_nowait s item now = Except.ok s2 ∧
      s2.queue.length = s.queue.length + 1 ∧
      s2.notify_count = s.notify_count + 1 := by
  have hde : w.data.isEmpty = false := by
    cases hd : w.data with
    | nil => exact absurd hd hdata
    | cons a l => rfl
  obtain ⟨h2, hpush, hlen⟩ := heappush_ok s.queue (t, item) hnotie
  unfold put_nowait
  rw [if_neg hfull]
  simp [hoid, hw, watchTruthy, hde, hready, hforce, ht, ht0, setMsg, hpush,
        hlen]

/-- Witness for the amended claim C2 at a concrete input. -/
theorem c2_stale_enqueue_amended_witness :
    ∃ s2, put_nowait ({ msgs := [(1, mkWatch 1 10 "find")] } : QState)
        { rid := 1, watchOid := some 1 } 0 = Except.ok s2 ∧
      s2.queue.length =
        ({ msgs := [(1, mkWatch 1 10 "find")] } : QState).queue.length + 1 ∧
      s2.notify_count =
        ({ msgs := [(1, mkWatch 1 10 "find")] } : QState).notify_count + 1 :=
  c2_stale_enqueue_amended _ _ 0 1 10 (mkWatch 1 10 "find") (by decide) rfl rfl
    (by decide) rfl (by decide) rfl (by decide) (by simp)

/-- Claim C3 counterexample: with maxsize 1, re-enqueuing the same
identity (an in-place replacement, after its deadline was rescheduled)
raises queue.Full even though the claim says replacement of an
existing identity never raises, regardless of capacity. -/
theorem c3_capacity_replacement_raises :
    c3run = Except.error PyError.queueFull := by rfl

/-- Claim C3 as amended: put_nowait raises queue.Full exactly when a
positive maxsize is configured and the internal heap already holds at
least maxsize entries.  The count is heap entries, including
superseded duplicates of the same identity, not distinct live
identities, and it applies to every insert, replacements included
(the only other error put_nowait can surface is the TypeError of a
heap push with a tied timestamp, never queue.Full). -/
theorem c3_capacity_amended (s : QState) (item : LogRecord) (now : Nat) :
    put_nowait s item now = Except.error PyError.queueFull ↔
      (s.maxsize ≤ s.queue.length ∧ 0 < s.maxsize) := by
  constructor
  · intro he
    by_contra hc
    unfold put_nowait at he
    rw [if_neg hc] at he
    dsimp only at he
    repeat' split at he
    all_goals
      first
      | exact Except.noConfusion he
      | (rename_i hp
         have h1 := heappush_error _ _ _ hp
         injection he with he2
         rw [h1] at he2
         exact PyError.noConfusion he2)
  · intro hfull
    unfold put_nowait
    rw [if_pos hfull]

/-- Witness for the amended claim C3 at a concrete input. -/
theorem c3_capacity_amended_witness :
    put_nowait
      ({ maxsize := 1,
         queue := [(10, { rid := 1, watchOid := some 1 })] } : QState)
      { rid := 2, watchOid := some 1 } 0 = Except.error PyError.queueFull :=
  (c3_capacity_amended _ _ 0).mpr (by decide)

/-- Claim C4 counterexample: set_ready does not report whether a
transition occurred.  On the non-final message ex4 the first call is
the genuine transition (the callback fires) and a second call is a
no-op (the callback does not fire), yet both calls return the same
value, Python None, so the return value cannot mean transition
occurred on one call and no transition on the other. -/
theorem c4_finalize_returns_none :
    (set_ready ex4).callbackFired = true ∧
    (set_ready (set_ready ex4).msg).callbackFired = false ∧
    (set_ready ex4).ret = (set_ready (set_ready ex4).msg).ret := by
  decide

/-- Claim C4 as amended: set_ready on an already-final record leaves
the whole record unchanged (its fields, deadline and callback
included) and does not invoke the ready callback a second time, while
the first call on a non-final record does invoke it; but the method
always returns None and does not report whether the transition
occurred. -/
theorem c4_finalize_idempotent_amended (m : WatchMessage) :
    ((set_ready m).msg.timeout_on = m.timeout_on ∧
     (set_ready m).msg.data = m.data ∧
     (set_ready m).msg.callback = m.callback ∧
     (set_ready m).ret = PyRet.pyNone) ∧
    (m.ready = true → (set_ready m).msg = m ∧
      (set_ready m).callbackFired = false) ∧
    (m.ready = false → (set_ready m).callbackFired = true) := by
  refine ⟨⟨rfl, rfl, rfl, rfl⟩, ?_, ?_⟩
  · intro h
    cases m
    simp_all [set_ready]
  · intro h
    simp [set_ready, h]

/-- Witness for the amended claim C4 at a concrete input. -/
theorem c4_finalize_idempotent_amended_witness :
    ((set_ready (set_ready ex4).msg).msg = (set_ready ex4).msg ∧
     (set_ready (set_ready ex4).msg).callbackFired = false) ∧
    (set_ready ex4).callbackFired = true :=
  ⟨(c4_finalize_idempotent_amended (set_ready ex4).msg).2.1 (by decide),
   (c4_finalize_idempotent_amended ex4).2.2 (by decide)⟩

/-- Claim C5 counterexample: finalize does not pull the deadline to
now.  The non-final message ex5 has deadline 100; finalizing it at
time 5 (earlier than the deadline) leaves timeout_on at 100 instead of
making it the current time as the claim requires. -/
theorem c5_deadline_not_pulled :
    ex5.ready = false ∧ ex5.timeout_on = some 100 ∧ (5 : Nat) < 100 ∧
    (set_ready ex5).msg.timeout_on = some 100 ∧
    (set_ready ex5).msg.timeout_on ≠ some 5 := by
  decide

/-- Claim C5 as amended: set_ready never modifies timeout_on at all
(so in particular it never delays it); immediate due-ness of a
finalized record is achieved by the ready_call_back path into
ready_items instead of by rewriting the deadline. -/
theorem c5_deadline_unchanged_amended (m : WatchMessage) :
    (set_ready m).msg.timeout_on = m.timeout_on := rfl

/-- Claim C6 (confirmed): immediate delivery on finalize.  For any
message with a nonzero deadline T, enqueued, then finalized by the
producer before T, then enqueued again, a get at any time t3 earlier
than T already returns the record carrying that message, without
waiting for the original deadline. -/
theorem c6_immediate_delivery_on_finalize (oid T t0 t1 t2 t3 : Nat)
    (hT : T ≠ 0) (h3 : t3 < T) :
    c6run oid T t0 t1 t2 t3 = some { rid := 1, watchOid := some oid } := by
  have h3' : ¬ T ≤ t3 := Nat.not_le.mpr h3
  simp [c6run, put_nowait, mkWatch, getMsg, setMsg, watchTruthy, heappush,
        siftdownFrom, listSet, listGet, tupLt, watch_set_ready, set_ready,
        fireCallback, ready_call_back_q, readySet, get_try, gcSkip,
        garbage_collect, gcDrain, gcRestore, garbageAdd, readyRemove,
        hT, h3']

/-- Witness for claim C6 at a concrete input. -/
theorem c6_immediate_delivery_on_finalize_witness :
    c6run 7 10 0 2 3 4 = some { rid := 1, watchOid := some 7 } :=
  c6_immediate_delivery_on_finalize 7 10 0 2 3 4 (by decide) (by decide)

/-- Claim C7 counterexample: get does not always return the globally
earliest-deadline ready record.  At time 10, record B (deadline 3) has
timed out and record A (deadline 100, finalized at time 2) is in the
ready set; the earliest deadline among ready records is 3, but the
code compares the heap candidate deadline 3 against the ready-set
insertion time 2 and returns A, whose deadline has not even elapsed. -/
theorem c7_earliest_deadline_violated :
    c7run = some { rid := 1, watchOid := some 1 } ∧
    (3 : Nat) ≤ 10 ∧ ¬ (100 : Nat) ≤ 10 := by
  decide

/-- Claim C7 as amended: the concrete two-record part of the claim
holds.  Two non-finalized records for distinct identities with
deadlines dA earlier than dB, both elapsed, are returned by two
sequential gets in deadline order, A first then B; among timed-out
heap records the earliest deadline wins.  The general clause fails
when a finalized record competes with a timed-out one, because the
selection then compares the ready-set insertion time with the heap
deadline (see the counterexample). -/
theorem c7_deadline_order_amended (dA dB nowg : Nat) (hA : dA ≠ 0)
    (hB : dB ≠ 0) (hAB : dA < dB) (hnow : dB ≤ nowg) :
    c7abRun dA dB nowg =
      some ({ rid := 1, watchOid := some 1 },
            { rid := 2, watchOid := some 2 }) := by
  have hAnow : dA ≤ nowg := le_trans (le_of_lt hAB) hnow
  have hBA : ¬ dB < dA := not_lt_of_gt hAB
  have hBAeq : dB ≠ dA := ne_of_gt hAB
  have htup : tupLt (dB, { rid := 2, watchOid := some 2 })
      (dA, { rid := 1, watchOid := some 1 }) = Except.ok false := by
    unfold tupLt
    rw [if_neg hBA, if_pos hAB]
  simp [c7abRun, put_nowait, mkWatch, getMsg, setMsg, watchTruthy, heappush,
        siftdownFrom, listSet, listGet, listPopLast, siftup,
        siftupLoop, heappop, get_try, gcSkip, garbage_collect, gcDrain,
        gcRestore, garbageAdd, readyRemove, hA, hB, hAnow, hBA, hBAeq, hnow,
        htup]

/-- Witness for the amended claim C7 at a concrete input. -/
theorem c7_deadline_order_amended_witness :
    c7abRun 1 2 5 =
      some ({ rid := 1, watchOid := some 1 },
            { rid := 2, watchOid := some 2 }) :=
  c7_deadline_order_amended 1 2 5 (by decide) (by decide) (by decide)
    (by decide)

/-- Claim C8 (confirmed): transform failures are absorbed at all four
cast sites of the OperationWatcher field construction.  When a cast
raises on the value the source would pass it, the field is recorded
with its pre-transform value: a defined argument keeps the raw
argument value, an undefined argument keeps the raw argument value,
the result keeps the raw result when the global result cast raises,
and a raising redefined result cast keeps the value the earlier global
cast produced.  The failure never escapes the field construction,
whose embedding is a total function. -/
theorem c8_transform_failures_absorbed
    (f u g g2 hr : PyVal → Except String PyVal)
    (msg args : Dict) (an an2 rname : String) (r rg av : PyVal)
    (e1 e2 e3 e4 : String)
    (hname : an ≠ "") (hres : an ≠ "_result") (hname2 : an2 ≠ "")
    (hrname : rname ≠ "")
    (hf : f ((dictGet args an).getD PyVal.vNone) = Except.error e1)
    (hg : g r = Except.error e2)
    (hu : u av = Except.error e3)
    (hg2 : g2 r = Except.ok rg)
    (hhr : hr r = Except.error e4) :
    dictGet (before_operation msg
        [(an, { toKey := FieldTo.unset, cast := some f, value := none })]
        watch_operation_result watch_operation_undefined_arguments args) an
      = some ((dictGet args an).getD PyVal.vNone) ∧
    dictGet (before_operation msg [] watch_operation_result
        { toKey := FieldTo.unset, cast := some u, value := none }
        [(an2, av)]) an2 = some av ∧
    dictGet (after_operation_fields msg []
        { toKey := FieldTo.name "Res", cast := some g, value := none } r) "Res"
      = some r ∧
    dictGet (after_operation_fields msg
        [(rname, { toKey := FieldTo.unset, cast := some hr, value := none })]
        { toKey := FieldTo.name rname, cast := some g2, value := none } r)
        rname = some rg := by
  refine ⟨?_, ?_, ?_, ?_⟩
  · unfold before_operation
    rw [processUndefined_default]
    unfold processDefined watch_operation_result
    simp only [List.foldl_cons, List.foldl_nil]
    rw [if_neg (by simp [hres])]
    simp only [suppressCast, hf]
    unfold resolvedName
    rw [if_neg hname]
    exact dictGet_dictSet msg an _
  · unfold before_operation processDefined processUndefined
    simp only [List.foldl_nil, List.foldl_cons, List.any_nil]
    simp only [suppressCast, hu]
    unfold resolvedName
    rw [if_neg hname2]
    simp only [List.foldl_nil]
    exact dictGet_dictSet msg an2 av
  · simp [after_operation_fields, suppressCast, hg, dictGet_dictSet]
  · unfold after_operation_fields
    simp only [suppressCast, hg2, hhr]
    simp [hrname, List.find?, dictGet_dictSet, hhr, hg2]

/-- Witness for claim C8 at a concrete input. -/
theorem c8_transform_failures_absorbed_witness :
    dictGet (before_operation []
        [("q", { toKey := FieldTo.unset,
                 cast := some (fun _ => Except.error "boom"), value := none })]
        watch_operation_result watch_operation_undefined_arguments
        [("q", PyVal.vInt 3)]) "q"
      = some ((dictGet [("q", PyVal.vInt 3)] "q").getD PyVal.vNone) ∧
    dictGet (before_operation [] [] watch_operation_result
        { toKey := FieldTo.unset,
          cast := some (fun _ => Except.error "boom"), value := none }
        [("u", PyVal.vStr "a")]) "u" = some (PyVal.vStr "a") ∧
    dictGet (after_operation_fields [] []
        { toKey := FieldTo.name "Res",
          cast := some (fun _ => Except.error "boom"), value := none }
        (PyVal.vInt 9)) "Res" = some (PyVal.vInt 9) ∧
    dictGet (after_operation_fields []
        [("Res2", { toKey := FieldTo.unset,
                    cast := some (fun _ => Except.error "boom"),
                    value := none })]
        { toKey := FieldTo.name "Res2",
          cast := some (fun _ => Except.ok (PyVal.vInt 42)), value := none }
        (PyVal.vInt 9)) "Res2" = some (PyVal.vInt 42) :=
  c8_transform_failures_absorbed (fun _ => Except.error "boom")
    (fun _ => Except.error "boom") (fun _ => Except.error "boom")
    (fun _ => Except.ok (PyVal.vInt 42)) (fun _ => Except.error "boom")
    [] [("q", PyVal.vInt 3)] "q" "u" "Res2" (PyVal.vInt 9) (PyVal.vInt 42)
    (PyVal.vStr "a") "boom" "boom" "boom" "boom" (by decide) (by decide)
    (by decide) (by decide) rfl rfl rfl rfl rfl

/-- Claim C9 (confirmed): for every tracked attribute, the rate
increment is the integer value of a numeric attribute, 1 for a present
but non-numeric attribute, and 0 for an absent attribute; the
computation is a total function and never raises. -/
theorem c9_rate_increments (attrs : List String) (watch : Dict) (a : String)
    (ha : a ∈ attrs) :
    incLookup (get_increments attrs watch) a = some (increment_of watch a) ∧
    (∀ n : Int, dictGet watch a = some (PyVal.vInt n) →
      increment_of watch a = n) ∧
    (∀ v : PyVal, dictGet watch a = some v → isNumber v = false →
      increment_of watch a = 1) ∧
    (dictGet watch a = none → increment_of watch a = 0) := by
  refine ⟨incLookup_get_increments attrs watch a ha, ?_, ?_, ?_⟩
  · intro n hn
    simp [increment_of, hn, isNumber, pyInt]
  · intro v hv hnv
    simp [increment_of, hv, hnv]
  · intro h0
    simp [increment_of, h0, isNumber, pyInt]

/-- Witness for claim C9 at a concrete input (a present but
non-numeric attribute). -/
theorem c9_rate_increments_witness :
    incLookup (get_increments ["Count"] [("Count", PyVal.vStr "x")]) "Count"
      = some (increment_of [("Count", PyVal.vStr "x")] "Count") ∧
    (∀ n : Int, dictGet [("Count", PyVal.vStr "x")] "Count"
        = some (PyVal.vInt n) →
      increment_of [("Count", PyVal.vStr "x")] "Count" = n) ∧
    (∀ v : PyVal, dictGet [("Count", PyVal.vStr "x")] "Count" = some v →
      isNumber v = false →
      increment_of [("Count", PyVal.vStr "x")] "Count" = 1) ∧
    (dictGet [("Count", PyVal.vStr "x")] "Count" = none →
      increment_of [("Count", PyVal.vStr "x")] "Count" = 0) :=
  c9_rate_increments ["Count"] [("Count", PyVal.vStr "x")] "Count" (by decide)

/-- Claim C10 (confirmed): the hash of a WatchMessage is its object
id, so it is unchanged by any mutation (field assignment or
set_ready), two distinct message objects have distinct hashes however
equal their contents, and a message stored in an identity-keyed set
container (the Python-set model with buckets recorded at insertion) is
still found there after it mutates in place. -/
theorem c10_identity_hash_stable (s : List PySetEntry) (m : WatchMessage)
    (k : String) (v : PyVal)
    (he : ({ bucket := msg_hash m, elem := m } : PySetEntry) ∈ s) :
    msg_hash (m.setItem k v) = msg_hash m ∧
    msg_hash (set_ready m).msg = msg_hash m ∧
    (∀ m2 : WatchMessage, m2.oid ≠ m.oid → dict_eq m2 m = true →
      msg_hash m2 ≠ msg_hash m) ∧
    pyset_contains (mutate_in_set s m.oid (fun x => WatchMessage.setItem x k v))
      (m.setItem k v) = true ∧
    pyset_contains (mutate_in_set s m.oid (fun x => (set_ready x).msg))
      ((set_ready m).msg) = true := by
  refine ⟨rfl, rfl, ?_, ?_, ?_⟩
  · intro m2 hne _
    exact hne
  · unfold pyset_contains mutate_in_set
    rw [List.any_eq_true]
    refine ⟨{ bucket := msg_hash m, elem := m.setItem k v }, ?_, ?_⟩
    · refine List.mem_map.mpr ⟨{ bucket := msg_hash m, elem := m }, he, ?_⟩
      simp [WatchMessage.setItem, msg_hash]
    · simp [msg_hash, WatchMessage.setItem, dict_eq]
  · unfold pyset_contains mutate_in_set
    rw [List.any_eq_true]
    refine ⟨{ bucket := msg_hash m, elem := (set_ready m).msg }, ?_, ?_⟩
    · refine List.mem_map.mpr ⟨{ bucket := msg_hash m, elem := m }, he, ?_⟩
      simp [set_ready, msg_hash]
    · simp [msg_hash, set_ready, dict_eq]

/-- Witness for claim C10 at a concrete input. -/
theorem c10_identity_hash_stable_witness :
    msg_hash ((mkWatch 1 10 "find").setItem "EndTime" (PyVal.vInt 7)) =
      msg_hash (mkWatch 1 10 "find") ∧
    msg_hash (set_ready (mkWatch 1 10 "find")).msg =
      msg_hash (mkWatch 1 10 "find") ∧
    (∀ m2 : WatchMessage, m2.oid ≠ (mkWatch 1 10 "find").oid →
      dict_eq m2 (mkWatch 1 10 "find") = true →
      msg_hash m2 ≠ msg_hash (mkWatch 1 10 "find")) ∧
    pyset_contains
      (mutate_in_set [{ bucket := 1, elem := mkWatch 1 10 "find" }]
        (mkWatch 1 10 "find").oid
        (fun x => WatchMessage.setItem x "EndTime" (PyVal.vInt 7)))
      ((mkWatch 1 10 "find").setItem "EndTime" (PyVal.vInt 7)) = true ∧
    pyset_contains
      (mutate_in_set [{ bucket := 1, elem := mkWatch 1 10 "find" }]
        (mkWatch 1 10 "find").oid (fun x => (set_ready x).msg))
      ((set_ready (mkWatch 1 10 "find")).msg) = true :=
  c10_identity_hash_stable [{ bucket := 1, elem := mkWatch 1 10 "find" }]
    (mkWatch 1 10 "find") "EndTime" (PyVal.vInt 7) (by decide)

end PymongoWatch
